import Mathlib

/-!
# godeploy: a shallow embedding of `godeploy.go`

The program is a straight-line deployment script: it reads `<app>.json`,
creates a `gossh` client, runs a fixed sequence of remote commands and closes
the client.  Everything it does is an effect on the outside world, so the
embedding threads an explicit world through the functions: the state of the
outside world (an arbitrary type `σ`) and the trace of the calls the program
has made so far.

The collaborators that are not part of the repository are parameters of the
embedding (`Env`): the file system (`os.Open`), the JSON decoder, the remote
execution of the `gossh` client and the wall clock.  `client.Execute` returns
a pointer to a result and an error, and either may be nil: a failed dial or a
session that cannot be created gives the nil result together with the error.
`RunCommand` reads the result without a nil check, so the embedding has two
ways out of every function, a normal return and a panic (`Exit`); a panic
skips the rest of every enclosing function except its deferred calls.
`fmt.Sprintf` with `%s` verbs only is string concatenation.
-/

namespace GoDeploy

/-! ## Data model -/

/-- Config contains the configuration file structure from a JSON file. -/
structure Config where
  Host : String
  User : String
  DeployDirectory : String
  App : String
  Repo : String
  Commands : List String
deriving DecidableEq, Repr

/-- The value of the Go expression `Config{}`: every string field empty, no
commands. -/
def Config.zero : Config := ⟨"", "", "", "", "", []⟩

/-- The broken-down wall-clock time that `time.Time.Format` works on (the
values of `t.Date()`, `t.Clock()` and `t.YearDay()`).  The ranges of the fields
other than the year are the ones the Go `time` package guarantees; the year is
a Go `int`. -/
structure Time where
  year : Int
  month : Nat
  day : Nat
  hour : Nat
  minute : Nat
  second : Nat
  yday : Nat
  month_range : 1 ≤ month ∧ month ≤ 12
  day_range : 1 ≤ day ∧ day ≤ 31
  hour_range : hour ≤ 23
  minute_range : minute ≤ 59
  second_range : second ≤ 59
  yday_range : 1 ≤ yday ∧ yday ≤ 366

/-- The part of a non-nil `*gossh.Result` that `RunCommand` reads:
`rsp.Stdout()`, `rsp.Stderr()` and `rsp.String()` (field `Combined`). -/
structure Result where
  Stdout : String
  Stderr : String
  Combined : String
deriving DecidableEq, Repr

/-- The three writers of a `gossh.Client`. -/
inductive Channel where
  | debug
  | info
  | error
deriving DecidableEq, Repr

/-- A `gossh.Writer` as this program builds them: the function from the
arguments of a call to the operands it hands to `log.Println`. -/
abbrev Writer := List String → List String

/-- The fields of a `gossh.Client` that the program sets or that decide where
commands run. -/
structure Client where
  Host : String
  User : String
  DebugWriter : Writer
  InfoWriter : Writer
  ErrorWriter : Writer

/-- One call the program makes on the outside world. -/
inductive Event where
  /-- The call `os.Open(filename)`. -/
  | openFile (filename : String)
  /-- The call `fmt.Println(operands...)`. -/
  | println (operands : List String)
  /-- The call `gossh.New(host, user)`. -/
  | newClient (host user : String)
  /-- The call `client.Execute(cmd)` on the client for `user@host`. -/
  | execute (host user cmd : String)
  /-- A call of the client writer of channel `ch`; `operands` is what the
  writer hands to `log.Println`. -/
  | write (ch : Channel) (operands : List String)
  /-- The call `time.Now()`, which returned `t`. -/
  | now (t : Time)
  /-- The call `client.Close()`. -/
  | close

/-- The collaborators outside the repository.  `σ` is the state of the outside
world (remote host, network, file system, clock). -/
structure Env (σ : Type) where
  /-- The call `os.Open` followed by reading: the content of the file, `none`
  when the file cannot be opened. -/
  osOpen : String → σ → Option String
  /-- The call `decoder.Decode(&configuration)` on a readable file with this content,
  starting from `Config{}`: the configuration afterwards and the error, if
  any. -/
  jsonDecode : String → Config × Option String
  /-- The call `client.Execute(cmd)` for the client of `host` and `user`: the
  result pointer (`none` for `nil`), the error (`none` for `nil`) and the world
  afterwards. -/
  Execute : String → String → String → σ → (Option Result × Option String) × σ
  /-- The call `time.Now()`: the wall clock in this state of the world. -/
  Now : σ → Time

/-- The world the program runs in: the outside state and the calls made so
far, oldest first. -/
structure World (σ : Type) where
  state : σ
  trace : List Event

/-- Record one call. -/
def World.emit {σ : Type} (w : World σ) (e : Event) : World σ :=
  ⟨w.state, w.trace ++ [e]⟩

/-- How a function of the program ends: it returns to its caller, or it
panics; either way the world is as the function left it. -/
inductive Exit (σ : Type) where
  | returned (w : World σ)
  | panicked (w : World σ)

/-- The world at the end of the function. -/
def Exit.world {σ : Type} : Exit σ → World σ
  | .returned w => w
  | .panicked w => w

/-- Whether the function returned to its caller. -/
def Exit.isReturned {σ : Type} : Exit σ → Bool
  | .returned _ => true
  | .panicked _ => false

/-- Sequencing of statements: the next statement runs after a normal return; a
panic propagates and the next statement does not run. -/
def Exit.andThen {σ : Type} (x : Exit σ) (next : World σ → Exit σ) : Exit σ :=
  match x with
  | .returned w => next w
  | .panicked w => .panicked w

/-- A deferred call: it runs when the body of the function ends, on a normal
return and on a panic alike, and the panic goes on after it. -/
def Exit.deferred {σ : Type} (body : Exit σ) (e : Event) : Exit σ :=
  match body with
  | .returned w => .returned (w.emit e)
  | .panicked w => .panicked (w.emit e)

/-! ## `time.Time.Format`, for layouts made of digits -/

/-- The layout elements of package `time` that start with a digit. -/
inductive Std where
  | stdLongYear
  | stdYear
  | stdNumMonth
  | stdZeroMonth
  | stdDay
  | stdZeroDay
  | stdZeroYearDay
  | stdHour
  | stdHour12
  | stdZeroHour12
  | stdMinute
  | stdZeroMinute
  | stdSecond
  | stdZeroSecond
deriving DecidableEq, Repr

/-- The table `std0x` of package `time`: the element for `0` followed by the
digit `c`, `1` to `6`. -/
def std0x (c : Char) : Option Std :=
  if c = '1' then some .stdZeroMonth
  else if c = '2' then some .stdZeroDay
  else if c = '3' then some .stdZeroHour12
  else if c = '4' then some .stdZeroMinute
  else if c = '5' then some .stdZeroSecond
  else if c = '6' then some .stdYear
  else none

/-- The cases `0` to `5` of `nextStdChunk`: the layout element that starts at
the head of the layout and the number of characters it takes, if there is
one.  Elements that start with another character (`Jan`, `Mon`, `MST`, `PM`,
`_2`, `Z07`, `-07`, fractional seconds) are outside this model. -/
def stdAt : List Char → Option (Std × Nat)
  | '0' :: c :: rest =>
    match std0x c with
    | some s => some (s, 2)
    | none =>
      if c = '0' ∧ rest.head? = some '2' then some (.stdZeroYearDay, 3) else none
  | '1' :: rest => if rest.head? = some '5' then some (.stdHour, 2) else some (.stdNumMonth, 1)
  | '2' :: rest => if rest.take 3 = ['0', '0', '6'] then some (.stdLongYear, 4) else some (.stdDay, 1)
  | '3' :: _ => some (.stdHour12, 1)
  | '4' :: _ => some (.stdMinute, 1)
  | '5' :: _ => some (.stdSecond, 1)
  | _ => none

/-- The byte `'0' + d`. -/
def digitChar (d : Nat) : Char := Char.ofNat (48 + d)

/-- The loop of `appendInt` that assembles the decimal digits of `u` from the
right into a buffer of 20 bytes; the first argument is the room left in the
buffer.  A Go `uint` is below `2^64`, which has 20 digits. -/
def utoa : Nat → Nat → List Char → List Char
  | 0, _, buf => buf
  | room + 1, u, buf =>
    if u < 10 then digitChar u :: buf
    else utoa room (u / 10) (digitChar (u % 10) :: buf)

/-- The function `appendInt(b, x, width)` of package `time`: a minus sign for a
negative `x`, then the decimal digits of its absolute value, padded with zeros
on the left to `width`. -/
def appendInt (b : List Char) (x : Int) (width : Nat) : List Char :=
  let b1 := if x < 0 then b ++ ['-'] else b
  let digits := utoa 20 x.natAbs []
  b1 ++ List.replicate (width - digits.length) '0' ++ digits

/-- One arm of the `switch` in `Time.AppendFormat`: the text of one layout
element. -/
def appendStd (b : List Char) (t : Time) : Std → List Char
  | .stdLongYear => appendInt b t.year 4
  | .stdYear => appendInt b ((if t.year < 0 then -t.year else t.year) % 100) 2
  | .stdNumMonth => appendInt b t.month 0
  | .stdZeroMonth => appendInt b t.month 2
  | .stdDay => appendInt b t.day 0
  | .stdZeroDay => appendInt b t.day 2
  | .stdZeroYearDay => appendInt b t.yday 3
  | .stdHour => appendInt b t.hour 2
  | .stdHour12 => appendInt b (if t.hour % 12 = 0 then 12 else t.hour % 12) 0
  | .stdZeroHour12 => appendInt b (if t.hour % 12 = 0 then 12 else t.hour % 12) 2
  | .stdMinute => appendInt b t.minute 0
  | .stdZeroMinute => appendInt b t.minute 2
  | .stdSecond => appendInt b t.second 0
  | .stdZeroSecond => appendInt b t.second 2

/-- The loop of `Time.AppendFormat` over the layout: a layout element is
replaced by its text, any other character is copied.  `skip` counts the
characters of the current element that are still to be passed over. -/
def appendFormat (t : Time) : List Char → Nat → List Char → List Char
  | [], _, b => b
  | _ :: rest, skip + 1, b => appendFormat t rest skip b
  | c :: rest, 0, b =>
    match stdAt (c :: rest) with
    | some (s, n) => appendFormat t rest (n - 1) (appendStd b t s)
    | none => appendFormat t rest 0 (b ++ [c])

/-- The method `t.Format(layout)`. -/
def Time.Format (t : Time) (layout : String) : String :=
  String.mk (appendFormat t layout.toList 0 [])

/-! ## The program -/

/-- The error of reading from the nil `*os.File` that a failed `os.Open`
leaves behind (`os.ErrInvalid`). -/
def osErrInvalid : String := "invalid argument"

/-- MakeLogger just adds a prefix (DEBUG, INFO, ERROR). -/
def MakeLogger (pfx : String) : Writer :=
  fun args => pfx :: args

/-- The call `gossh.New(host, user)`: a client whose writers are not set yet
(the empty writer stands for `nil`; the program installs its writers before it
runs any command). -/
def gosshNew (host user : String) : Client :=
  ⟨host, user, fun _ => [], fun _ => [], fun _ => []⟩

/-- ReadConfig reads from the passed in configuration filename.  The result of
`os.Open` is not checked: decoding from the nil file fails on the first read
and leaves `Config{}` untouched. -/
def ReadConfig {σ : Type} (env : Env σ) (filename : String) (w : World σ) :
    Config × World σ :=
  let w1 := w.emit (.openFile filename)
  let decoded : Config × Option String :=
    match env.osOpen filename w1.state with
    | some content => env.jsonDecode content
    | none => (Config.zero, some osErrInvalid)
  match decoded.2 with
  | some err => (decoded.1, w1.emit (.println ["error:", err]))
  | none => (decoded.1, w1)

/-- RunCommand runs one specific command on the client.  The result `rsp` is
read with no nil check: `rsp.Stdout()` in the error branch and `rsp.String()`
after it dereference the nil pointer and panic when `Execute` returned the nil
result. -/
def RunCommand {σ : Type} (env : Env σ) (cmd : String) (client : Client)
    (w : World σ) : Exit σ :=
  let w1 := w.emit (.println ["Running ", cmd])
  let r := env.Execute client.Host client.User cmd w1.state
  let w2 : World σ := ⟨r.2, w1.trace ++ [.execute client.Host client.User cmd]⟩
  let errorBranch : Exit σ :=
    match r.1.2 with
    | some e =>
      let w3 := w2.emit (.write .error (client.ErrorWriter [e]))
      match r.1.1 with
      | some rsp =>
        .returned
          ((w3.emit (.write .error (client.ErrorWriter ["STDOUT: " ++ rsp.Stdout]))).emit
            (.write .error (client.ErrorWriter ["STDERR: " ++ rsp.Stderr])))
      | none => .panicked w3
    | none => .returned w2
  errorBranch.andThen fun w4 =>
    match r.1.1 with
    | some rsp => .returned (w4.emit (.write .info (client.InfoWriter [rsp.Combined])))
    | none => .panicked w4

/-- RunCommandChain runs a set of commands on the client. -/
def RunCommandChain {σ : Type} (env : Env σ) (commands : List String)
    (client : Client) (w : World σ) : Exit σ :=
  match commands with
  | [] => .returned w
  | cmd :: rest =>
    (RunCommand env cmd client w).andThen fun w1 => RunCommandChain env rest client w1

/-- The layout that CleanupRelease formats the time with. -/
def timestampLayout : String := "20060102150405"

/-- CleanupRelease moves the build directory to a timestamped directory. -/
def CleanupRelease {σ : Type} (env : Env σ) (config : Config) (client : Client)
    (w : World σ) : Exit σ :=
  let t := env.Now w.state
  let w0 := w.emit (.now t)
  let timestamp := t.Format timestampLayout
  let fromDir := config.DeployDirectory ++ "/releases/build"
  let toDir := config.DeployDirectory ++ "/releases/" ++ timestamp
  (RunCommand env ("mv " ++ fromDir ++ " " ++ toDir) client w0).andThen fun w1 =>
    RunCommand env ("ln -sf " ++ toDir ++ " " ++ config.DeployDirectory ++ "/current")
      client w1

/-- SetupWorkDirectory makes sure the build directory exists. -/
def SetupWorkDirectory {σ : Type} (env : Env σ) (config : Config) (client : Client)
    (w : World σ) : Exit σ :=
  (RunCommand env ("mkdir " ++ config.DeployDirectory) client w).andThen fun w1 =>
  (RunCommand env ("mkdir " ++ config.DeployDirectory ++ "/releases") client w1).andThen
    fun w2 =>
  (RunCommand env ("mkdir " ++ config.DeployDirectory ++ "/shared") client w2).andThen
    fun w3 =>
  RunCommand env ("mkdir " ++ config.DeployDirectory ++ "/releases/build") client w3

/-- CheckoutRepo makes sure the application has been checked out from the
repo. -/
def CheckoutRepo {σ : Type} (env : Env σ) (branch : String) (config : Config)
    (client : Client) (w : World σ) : Exit σ :=
  let directory := config.DeployDirectory ++ "/releases/build"
  (RunCommand env ("git clone " ++ config.Repo ++ " " ++ directory) client w).andThen
    fun w1 =>
  RunCommand env ("cd " ++ directory ++ " && git checkout " ++ branch) client w1

/-- PerformDeploy performs all of the deployment steps.  `client.Close()` is
deferred before the first phase: it runs when the phases have returned and
also when one of them panics. -/
def PerformDeploy {σ : Type} (env : Env σ) (host app branch : String)
    (w : World σ) : Exit σ :=
  let rc := ReadConfig env (app ++ ".json") w
  let config := rc.1
  let client0 := gosshNew host config.User
  let w0 := rc.2.emit (.newClient host config.User)
  let client : Client :=
    { client0 with
      DebugWriter := MakeLogger "DEBUG"
      InfoWriter := MakeLogger "INFO "
      ErrorWriter := MakeLogger "ERROR" }
  let body : Exit σ :=
    (SetupWorkDirectory env config client w0).andThen fun w1 =>
    (CheckoutRepo env branch config client w1).andThen fun w2 =>
    (RunCommandChain env config.Commands client w2).andThen fun w3 =>
    CleanupRelease env config client w3
  body.deferred .close

/-! ## Observations on a trace -/

/-- The command strings handed to `client.Execute`, oldest first. -/
def executed (tr : List Event) : List String :=
  tr.filterMap fun e =>
    match e with
    | .execute _ _ cmd => some cmd
    | _ => none

/-- The readings of the clock. -/
def clockReads (tr : List Event) : List Time :=
  tr.filterMap fun e =>
    match e with
    | .now t => some t
    | _ => none

/-- What was written through the writer of channel `ch`, oldest first. -/
def written (ch : Channel) (tr : List Event) : List (List String) :=
  tr.filterMap fun e =>
    match e with
    | .write c ops => if c = ch then some ops else none
    | _ => none

/-- The operands of the calls of `fmt.Println`. -/
def printed (tr : List Event) : List (List String) :=
  tr.filterMap fun e =>
    match e with
    | .println ops => some ops
    | _ => none

/-- The files opened. -/
def filesOpened (tr : List Event) : List String :=
  tr.filterMap fun e =>
    match e with
    | .openFile f => some f
    | _ => none

/-- The calls that concern the session, in order: the creation of a client,
the executions and the close. -/
def sessionEvents (tr : List Event) : List Event :=
  tr.filter fun e =>
    match e with
    | .newClient _ _ => true
    | .execute _ _ _ => true
    | .close => true
    | _ => false

/-- The calls one RunCommand makes, given what the execution returned: with
the nil result it stops after the first line of the error branch, or before
the info line when there is no error either. -/
def runEvents (client : Client) (cmd : String) (out : Option Result × Option String) :
    List Event :=
  [.println ["Running ", cmd], .execute client.Host client.User cmd]
    ++ (match out.2 with
        | some e =>
          .write .error (client.ErrorWriter [e]) ::
            (match out.1 with
             | some rsp =>
               [.write .error (client.ErrorWriter ["STDOUT: " ++ rsp.Stdout]),
                .write .error (client.ErrorWriter ["STDERR: " ++ rsp.Stderr])]
             | none => [])
        | none => [])
    ++ (match out.1 with
        | some rsp => [.write .info (client.InfoWriter [rsp.Combined])]
        | none => [])

/-- The client that PerformDeploy runs its commands on. -/
def deployClient (host user : String) : Client :=
  { gosshNew host user with
    DebugWriter := MakeLogger "DEBUG"
    InfoWriter := MakeLogger "INFO "
    ErrorWriter := MakeLogger "ERROR" }

/-- The value of a string of decimal digits, most significant first. -/
def decimalValue (cs : List Char) : Nat :=
  cs.foldl (fun acc c => 10 * acc + (c.toNat - 48)) 0

/-- The commands of SetupWorkDirectory. -/
def setupCommands (c : Config) : List String :=
  ["mkdir " ++ c.DeployDirectory,
   "mkdir " ++ c.DeployDirectory ++ "/releases",
   "mkdir " ++ c.DeployDirectory ++ "/shared",
   "mkdir " ++ c.DeployDirectory ++ "/releases/build"]

/-- The commands of CheckoutRepo. -/
def checkoutCommands (c : Config) (branch : String) : List String :=
  ["git clone " ++ c.Repo ++ " " ++ (c.DeployDirectory ++ "/releases/build"),
   "cd " ++ (c.DeployDirectory ++ "/releases/build") ++ " && git checkout " ++ branch]

/-- The commands of CleanupRelease for the label `ts`. -/
def cleanupCommands (c : Config) (ts : String) : List String :=
  ["mv " ++ (c.DeployDirectory ++ "/releases/build") ++ " "
      ++ (c.DeployDirectory ++ "/releases/" ++ ts),
   "ln -sf " ++ (c.DeployDirectory ++ "/releases/" ++ ts) ++ " "
      ++ (c.DeployDirectory ++ "/current")]

/-- The commands of one deploy, in the order of the four phases: setup,
checkout, the configured commands, promotion to the release labelled `ts`. -/
def deployCommands (c : Config) (branch ts : String) : List String :=
  setupCommands c ++ checkoutCommands c branch ++ c.Commands ++ cleanupCommands c ts

/-! ## Concrete inputs -/

/-- The configuration of the end-to-end scenario; its `Host` field names a
machine other than the one deployed to. -/
def exampleConfig : Config :=
  ⟨"files.example.org", "deploy", "/srv/app", "app", "git@x:y.git", ["./build.sh"]⟩

/-- The time 2024-03-07 09:05:02. -/
def exampleTime : Time :=
  ⟨2024, 3, 7, 9, 5, 2, 67,
   by decide, by decide, by decide, by decide, by decide, by decide⟩

/-- The time 10000-01-01 00:00:00. -/
def timeYear10000 : Time :=
  ⟨10000, 1, 1, 0, 0, 0, 1,
   by decide, by decide, by decide, by decide, by decide, by decide⟩

/-- An environment in which every file decodes to `exampleConfig` and every
remote command succeeds with empty output. -/
def exampleEnv : Env Unit where
  osOpen := fun _ _ => some "(the JSON text)"
  jsonDecode := fun _ => (exampleConfig, none)
  Execute := fun _ _ _ s => ((some ⟨"", "", ""⟩, none), s)
  Now := fun _ => exampleTime

/-- An environment in which the commands in `bad` get the nil result with an
error (the session for them cannot be created) and every other command
succeeds with empty output. -/
def dropOn (bad : List String) : Env Unit where
  osOpen := fun _ _ => some "(the JSON text)"
  jsonDecode := fun _ => (exampleConfig, none)
  Execute := fun _ _ cmd s =>
    if cmd ∈ bad then ((none, some "ssh: session could not be created"), s)
    else ((some ⟨"", "", ""⟩, none), s)
  Now := fun _ => exampleTime

/-- An environment in which no session can be established: every execution
fails in the dial and returns the nil result with the error of the dial. -/
def unreachableEnv : Env Unit where
  osOpen := fun _ _ => some "(the JSON text)"
  jsonDecode := fun _ => (exampleConfig, none)
  Execute := fun _ _ _ s => ((none, some "dial tcp: connection refused"), s)
  Now := fun _ => exampleTime

/-- An environment without any configuration file, in which every command
succeeds with empty output. -/
def missingFileEnv : Env Unit where
  osOpen := fun _ _ => none
  jsonDecode := fun _ => (exampleConfig, none)
  Execute := fun _ _ _ s => ((some ⟨"", "", ""⟩, none), s)
  Now := fun _ => exampleTime

/-- An environment without any configuration file and without a reachable
host. -/
def missingFileUnreachableEnv : Env Unit where
  osOpen := fun _ _ => none
  jsonDecode := fun _ => (exampleConfig, none)
  Execute := fun _ _ _ s => ((none, some "dial tcp: connection refused"), s)
  Now := fun _ => exampleTime

/-! ## Lemmas on traces -/

theorem andThen_returned_self {σ : Type} (x : Exit σ) : x.andThen Exit.returned = x := by
  cases x <;> rfl

theorem andThen_assoc {σ : Type} (x : Exit σ) (f g : World σ → Exit σ) :
    (x.andThen f).andThen g = x.andThen fun w => (f w).andThen g := by
  cases x <;> rfl

theorem exit_of_isReturned {σ : Type} (x : Exit σ) (h : x.isReturned = true) :
    x = .returned x.world := by
  cases x with
  | returned w => rfl
  | panicked w => simp [Exit.isReturned] at h

theorem exit_of_not_isReturned {σ : Type} (x : Exit σ) (h : x.isReturned = false) :
    x = .panicked x.world := by
  cases x with
  | returned w => simp [Exit.isReturned] at h
  | panicked w => rfl

theorem executed_append (a b : List Event) :
    executed (a ++ b) = executed a ++ executed b := by
  simp [executed]

theorem clockReads_append (a b : List Event) :
    clockReads (a ++ b) = clockReads a ++ clockReads b := by
  simp [clockReads]

theorem written_append (ch : Channel) (a b : List Event) :
    written ch (a ++ b) = written ch a ++ written ch b := by
  simp [written]

theorem filesOpened_append (a b : List Event) :
    filesOpened (a ++ b) = filesOpened a ++ filesOpened b := by
  simp [filesOpened]

theorem sessionEvents_append (a b : List Event) :
    sessionEvents (a ++ b) = sessionEvents a ++ sessionEvents b := by
  simp [sessionEvents]

theorem executed_runEvents (client : Client) (cmd : String)
    (out : Option Result × Option String) :
    executed (runEvents client cmd out) = [cmd] := by
  unfold runEvents
  cases h1 : out.1 <;> cases h2 : out.2 <;> simp [executed, h1, h2]

theorem clockReads_runEvents (client : Client) (cmd : String)
    (out : Option Result × Option String) :
    clockReads (runEvents client cmd out) = [] := by
  unfold runEvents
  cases h1 : out.1 <;> cases h2 : out.2 <;> simp [clockReads, h1, h2]

theorem filesOpened_runEvents (client : Client) (cmd : String)
    (out : Option Result × Option String) :
    filesOpened (runEvents client cmd out) = [] := by
  unfold runEvents
  cases h1 : out.1 <;> cases h2 : out.2 <;> simp [filesOpened, h1, h2]

theorem sessionEvents_runEvents (client : Client) (cmd : String)
    (out : Option Result × Option String) :
    sessionEvents (runEvents client cmd out) = [.execute client.Host client.User cmd] := by
  unfold runEvents
  cases h1 : out.1 <;> cases h2 : out.2 <;> simp [sessionEvents, h1, h2]

theorem written_error_runEvents (client : Client) (cmd : String)
    (out : Option Result × Option String) :
    written .error (runEvents client cmd out)
      = match out.2, out.1 with
        | some e, some rsp =>
          [client.ErrorWriter [e], client.ErrorWriter ["STDOUT: " ++ rsp.Stdout],
           client.ErrorWriter ["STDERR: " ++ rsp.Stderr]]
        | some e, none => [client.ErrorWriter [e]]
        | none, _ => [] := by
  unfold runEvents
  cases h1 : out.1 <;> cases h2 : out.2 <;> simp [written, h1, h2]

theorem written_info_runEvents (client : Client) (cmd : String)
    (out : Option Result × Option String) :
    written .info (runEvents client cmd out)
      = match out.1 with
        | some rsp => [client.InfoWriter [rsp.Combined]]
        | none => [] := by
  unfold runEvents
  cases h1 : out.1 <;> cases h2 : out.2 <;> simp [written, h1, h2]

theorem RunCommand_world {σ : Type} (env : Env σ) (cmd : String) (client : Client)
    (w : World σ) :
    (RunCommand env cmd client w).world
      = ⟨(env.Execute client.Host client.User cmd w.state).2,
         w.trace ++ runEvents client cmd (env.Execute client.Host client.User cmd w.state).1⟩ := by
  unfold RunCommand runEvents
  cases h1 : (env.Execute client.Host client.User cmd w.state).1.1 <;>
    cases h2 : (env.Execute client.Host client.User cmd w.state).1.2 <;>
    simp [World.emit, Exit.andThen, Exit.world, h1, h2]

theorem RunCommand_isReturned {σ : Type} (env : Env σ) (cmd : String) (client : Client)
    (w : World σ) :
    (RunCommand env cmd client w).isReturned
      = (env.Execute client.Host client.User cmd w.state).1.1.isSome := by
  unfold RunCommand
  cases h1 : (env.Execute client.Host client.User cmd w.state).1.1 <;>
    cases h2 : (env.Execute client.Host client.User cmd w.state).1.2 <;>
    simp [World.emit, Exit.andThen, Exit.isReturned, h1, h2]

theorem RunCommand_of_result {σ : Type} (env : Env σ) (cmd : String) (client : Client)
    (w : World σ) (h : (env.Execute client.Host client.User cmd w.state).1.1 ≠ none) :
    RunCommand env cmd client w = .returned (RunCommand env cmd client w).world := by
  apply exit_of_isReturned
  rw [RunCommand_isReturned]
  cases h1 : (env.Execute client.Host client.User cmd w.state).1.1 with
  | none => exact absurd h1 h
  | some r => rfl

theorem RunCommand_of_nil {σ : Type} (env : Env σ) (cmd : String) (client : Client)
    (w : World σ) (h : (env.Execute client.Host client.User cmd w.state).1.1 = none) :
    RunCommand env cmd client w = .panicked (RunCommand env cmd client w).world := by
  apply exit_of_not_isReturned
  rw [RunCommand_isReturned, h]
  rfl

theorem RunCommandChain_append {σ : Type} (env : Env σ) (a b : List String)
    (client : Client) (w : World σ) :
    RunCommandChain env (a ++ b) client w
      = (RunCommandChain env a client w).andThen (RunCommandChain env b client) := by
  induction a generalizing w with
  | nil => simp [RunCommandChain, Exit.andThen]
  | cons cmd rest ih =>
    simp only [List.cons_append, RunCommandChain, andThen_assoc]
    congr
    funext w1
    exact ih w1

theorem RunCommandChain_nil_first {σ : Type} (env : Env σ) (cmd : String)
    (rest : List String) (client : Client) (w : World σ)
    (h : (env.Execute client.Host client.User cmd w.state).1.1 = none) :
    RunCommandChain env (cmd :: rest) client w
      = .panicked (RunCommand env cmd client w).world := by
  rw [RunCommandChain, RunCommand_of_nil env cmd client w h]
  rfl

theorem RunCommandChain_spec {σ : Type} (env : Env σ) (commands : List String)
    (client : Client) (w : World σ) :
    ∃ evs, (RunCommandChain env commands client w).world.trace = w.trace ++ evs
      ∧ sessionEvents evs = (executed evs).map (Event.execute client.Host client.User)
      ∧ filesOpened evs = []
      ∧ clockReads evs = []
      ∧ (executed evs).head? = commands.head?
      ∧ ((RunCommandChain env commands client w).isReturned = true
          → executed evs = commands) := by
  induction commands generalizing w with
  | nil => exact ⟨[], by simp [RunCommandChain, Exit.world], rfl, rfl, rfl, rfl, fun _ => rfl⟩
  | cons cmd rest ih =>
    have hw := RunCommand_world env cmd client w
    cases hx : RunCommand env cmd client w with
    | returned w1 =>
      rw [hx] at hw
      simp only [Exit.world] at hw
      obtain ⟨evs, htr, hses, hfiles, hclock, -, hret⟩ := ih w1
      refine ⟨runEvents client cmd (env.Execute client.Host client.User cmd w.state).1 ++ evs,
        ?_, ?_, ?_, ?_, ?_, ?_⟩
      · simp only [RunCommandChain, hx, Exit.andThen]
        rw [htr, hw, List.append_assoc]
      · simp [sessionEvents_append, executed_append, sessionEvents_runEvents,
          executed_runEvents, hses]
      · simp [filesOpened_append, filesOpened_runEvents, hfiles]
      · simp [clockReads_append, clockReads_runEvents, hclock]
      · simp [executed_append, executed_runEvents]
      · intro h
        simp only [RunCommandChain, hx, Exit.andThen] at h
        simp [executed_append, executed_runEvents, hret h]
    | panicked w1 =>
      rw [hx] at hw
      simp only [Exit.world] at hw
      refine ⟨runEvents client cmd (env.Execute client.Host client.User cmd w.state).1,
        ?_, ?_, ?_, ?_, ?_, ?_⟩
      · simp only [RunCommandChain, hx, Exit.andThen, Exit.world]
        rw [hw]
      · simp [sessionEvents_runEvents, executed_runEvents]
      · exact filesOpened_runEvents _ _ _
      · exact clockReads_runEvents _ _ _
      · simp [executed_runEvents]
      · intro h
        simp [RunCommandChain, hx, Exit.andThen, Exit.isReturned] at h

theorem RunCommandChain_readable {σ : Type} (env : Env σ) (commands : List String)
    (client : Client) (w : World σ)
    (hr : ∀ h u c st, (env.Execute h u c st).1.1 ≠ none) :
    (RunCommandChain env commands client w).isReturned = true := by
  induction commands generalizing w with
  | nil => rfl
  | cons cmd rest ih =>
    rw [RunCommandChain, RunCommand_of_result env cmd client w (hr _ _ _ _)]
    exact ih _

theorem SetupWorkDirectory_eq_chain {σ : Type} (env : Env σ) (config : Config)
    (client : Client) (w : World σ) :
    SetupWorkDirectory env config client w
      = RunCommandChain env (setupCommands config) client w := by
  simp [SetupWorkDirectory, setupCommands, RunCommandChain, andThen_returned_self]

theorem CheckoutRepo_eq_chain {σ : Type} (env : Env σ) (branch : String) (config : Config)
    (client : Client) (w : World σ) :
    CheckoutRepo env branch config client w
      = RunCommandChain env (checkoutCommands config branch) client w := by
  simp [CheckoutRepo, checkoutCommands, RunCommandChain, andThen_returned_self]

theorem CleanupRelease_eq_chain {σ : Type} (env : Env σ) (config : Config)
    (client : Client) (w : World σ) :
    CleanupRelease env config client w
      = RunCommandChain env
          (cleanupCommands config ((env.Now w.state).Format timestampLayout)) client
          (w.emit (.now (env.Now w.state))) := by
  simp [CleanupRelease, cleanupCommands, RunCommandChain, andThen_returned_self,
    String.append_assoc]

theorem PerformDeploy_eq {σ : Type} (env : Env σ) (host app branch : String)
    (w : World σ) :
    PerformDeploy env host app branch w
      = ((RunCommandChain env
            (setupCommands (ReadConfig env (app ++ ".json") w).1
              ++ checkoutCommands (ReadConfig env (app ++ ".json") w).1 branch
              ++ (ReadConfig env (app ++ ".json") w).1.Commands)
            (deployClient host (ReadConfig env (app ++ ".json") w).1.User)
            ((ReadConfig env (app ++ ".json") w).2.emit
              (.newClient host (ReadConfig env (app ++ ".json") w).1.User))).andThen
          (CleanupRelease env (ReadConfig env (app ++ ".json") w).1
            (deployClient host (ReadConfig env (app ++ ".json") w).1.User))).deferred
        .close := by
  simp only [PerformDeploy, RunCommandChain_append, SetupWorkDirectory_eq_chain,
    CheckoutRepo_eq_chain, andThen_assoc]
  rfl

theorem ReadConfig_state {σ : Type} (env : Env σ) (filename : String) (w : World σ) :
    (ReadConfig env filename w).2.state = w.state := by
  simp only [ReadConfig]
  split <;> simp [World.emit]

theorem ReadConfig_executed {σ : Type} (env : Env σ) (filename : String) (w : World σ) :
    executed (ReadConfig env filename w).2.trace = executed w.trace := by
  simp only [ReadConfig]
  split <;> simp [World.emit, executed]

theorem ReadConfig_clockReads {σ : Type} (env : Env σ) (filename : String) (w : World σ) :
    clockReads (ReadConfig env filename w).2.trace = clockReads w.trace := by
  simp only [ReadConfig]
  split <;> simp [World.emit, clockReads]

theorem ReadConfig_sessionEvents {σ : Type} (env : Env σ) (filename : String)
    (w : World σ) :
    sessionEvents (ReadConfig env filename w).2.trace = sessionEvents w.trace := by
  simp only [ReadConfig]
  split <;> simp [World.emit, sessionEvents]

theorem ReadConfig_filesOpened {σ : Type} (env : Env σ) (filename : String) (w : World σ) :
    filesOpened (ReadConfig env filename w).2.trace = filesOpened w.trace ++ [filename] := by
  simp only [ReadConfig]
  split <;> simp [World.emit, filesOpened]

theorem ReadConfig_written {σ : Type} (env : Env σ) (filename : String) (w : World σ)
    (ch : Channel) :
    written ch (ReadConfig env filename w).2.trace = written ch w.trace := by
  simp only [ReadConfig]
  split <;> simp [World.emit, written]

theorem ReadConfig_unopened {σ : Type} (env : Env σ) (filename : String) (w : World σ)
    (h : env.osOpen filename w.state = none) :
    (ReadConfig env filename w).1 = Config.zero
      ∧ printed (ReadConfig env filename w).2.trace
          = printed w.trace ++ [["error:", osErrInvalid]] := by
  unfold ReadConfig
  simp [World.emit, h, printed]

theorem ReadConfig_opened {σ : Type} (env : Env σ) (filename : String) (w : World σ)
    (content : String) (h : env.osOpen filename w.state = some content) :
    (ReadConfig env filename w).1 = (env.jsonDecode content).1 := by
  simp only [ReadConfig, World.emit, h]
  split <;> rfl

theorem deferred_world_trace {σ : Type} (x : Exit σ) (e : Event) :
    (x.deferred e).world.trace = x.world.trace ++ [e] := by
  cases x <;> rfl

theorem deferred_isReturned {σ : Type} (x : Exit σ) (e : Event) :
    (x.deferred e).isReturned = x.isReturned := by
  cases x <;> rfl

theorem deployCommands_length (c : Config) (branch ts : String) :
    (deployCommands c branch ts).length = 8 + c.Commands.length := by
  simp [deployCommands, setupCommands, checkoutCommands, cleanupCommands]
  omega

theorem PerformDeploy_spec {σ : Type} (env : Env σ) (host app branch : String)
    (w : World σ) :
    ∃ evs,
      (PerformDeploy env host app branch w).world.trace
          = (ReadConfig env (app ++ ".json") w).2.trace
            ++ [Event.newClient host (ReadConfig env (app ++ ".json") w).1.User]
            ++ evs ++ [Event.close]
      ∧ sessionEvents evs
          = (executed evs).map
              (Event.execute host (ReadConfig env (app ++ ".json") w).1.User)
      ∧ filesOpened evs = []
      ∧ (executed evs).head?
          = some ("mkdir " ++ (ReadConfig env (app ++ ".json") w).1.DeployDirectory)
      ∧ ((PerformDeploy env host app branch w).isReturned = true →
          ∃ t : Time, clockReads evs = [t]
            ∧ executed evs
                = deployCommands (ReadConfig env (app ++ ".json") w).1 branch
                    (t.Format timestampLayout)) := by
  rw [PerformDeploy_eq]
  simp only [deferred_world_trace, deferred_isReturned]
  obtain ⟨evs1, htr1, hses1, hfiles1, hclock1, hhead1, hret1⟩ :=
    RunCommandChain_spec env
      (setupCommands (ReadConfig env (app ++ ".json") w).1
        ++ checkoutCommands (ReadConfig env (app ++ ".json") w).1 branch
        ++ (ReadConfig env (app ++ ".json") w).1.Commands)
      (deployClient host (ReadConfig env (app ++ ".json") w).1.User)
      ((ReadConfig env (app ++ ".json") w).2.emit
        (.newClient host (ReadConfig env (app ++ ".json") w).1.User))
  have hhead : (executed evs1).head?
      = some ("mkdir " ++ (ReadConfig env (app ++ ".json") w).1.DeployDirectory) := by
    rw [hhead1]
    simp [setupCommands]
  cases hx : RunCommandChain env
      (setupCommands (ReadConfig env (app ++ ".json") w).1
        ++ checkoutCommands (ReadConfig env (app ++ ".json") w).1 branch
        ++ (ReadConfig env (app ++ ".json") w).1.Commands)
      (deployClient host (ReadConfig env (app ++ ".json") w).1.User)
      ((ReadConfig env (app ++ ".json") w).2.emit
        (.newClient host (ReadConfig env (app ++ ".json") w).1.User)) with
  | returned w3 =>
    rw [hx] at htr1 hret1
    simp only [Exit.world, Exit.isReturned, forall_const] at htr1 hret1
    obtain ⟨evs2, htr2, hses2, hfiles2, hclock2, -, hret2⟩ :=
      RunCommandChain_spec env
        (cleanupCommands (ReadConfig env (app ++ ".json") w).1
          ((env.Now w3.state).Format timestampLayout))
        (deployClient host (ReadConfig env (app ++ ".json") w).1.User)
        (w3.emit (.now (env.Now w3.state)))
    refine ⟨evs1 ++ [Event.now (env.Now w3.state)] ++ evs2, ?_, ?_, ?_, ?_, ?_⟩
    · simp only [Exit.andThen, CleanupRelease_eq_chain]
      rw [htr2]
      simp only [World.emit, htr1, List.append_assoc]
    · simp only [sessionEvents_append, executed_append, hses1, hses2, List.map_append]
      simp [sessionEvents, executed, deployClient, gosshNew]
    · rw [filesOpened_append, filesOpened_append, hfiles1, hfiles2]
      rfl
    · rw [executed_append, executed_append]
      cases he : executed evs1 with
      | nil => rw [he] at hhead; simp at hhead
      | cons a rest => rw [he] at hhead; simpa using hhead
    · intro h
      simp only [Exit.andThen, CleanupRelease_eq_chain] at h
      refine ⟨env.Now w3.state, ?_, ?_⟩
      · rw [clockReads_append, clockReads_append, hclock1, hclock2]
        rfl
      · simp only [executed_append, hret1, hret2 h, deployCommands]
        simp [executed]
  | panicked w3 =>
    rw [hx] at htr1
    simp only [Exit.world] at htr1
    refine ⟨evs1, ?_, ?_, hfiles1, hhead, ?_⟩
    · simp only [Exit.andThen, Exit.world, htr1, World.emit, List.append_assoc]
    · simpa [deployClient, gosshNew] using hses1
    · intro h
      simp [Exit.andThen, Exit.isReturned] at h

theorem CleanupRelease_readable {σ : Type} (env : Env σ) (config : Config)
    (client : Client) (w : World σ)
    (hr : ∀ h u c st, (env.Execute h u c st).1.1 ≠ none) :
    (CleanupRelease env config client w).isReturned = true := by
  rw [CleanupRelease_eq_chain]
  exact RunCommandChain_readable env _ client _ hr

theorem PerformDeploy_readable {σ : Type} (env : Env σ) (host app branch : String)
    (w : World σ) (hr : ∀ h u c st, (env.Execute h u c st).1.1 ≠ none) :
    (PerformDeploy env host app branch w).isReturned = true := by
  rw [PerformDeploy_eq, deferred_isReturned]
  have h1 := RunCommandChain_readable env
      (setupCommands (ReadConfig env (app ++ ".json") w).1
        ++ checkoutCommands (ReadConfig env (app ++ ".json") w).1 branch
        ++ (ReadConfig env (app ++ ".json") w).1.Commands)
      (deployClient host (ReadConfig env (app ++ ".json") w).1.User)
      ((ReadConfig env (app ++ ".json") w).2.emit
        (.newClient host (ReadConfig env (app ++ ".json") w).1.User)) hr
  rw [exit_of_isReturned _ h1]
  exact CleanupRelease_readable env _ _ _ hr

theorem PerformDeploy_nil_first {σ : Type} (env : Env σ) (host app branch : String)
    (w : World σ)
    (h : (env.Execute host (ReadConfig env (app ++ ".json") w).1.User
            ("mkdir " ++ (ReadConfig env (app ++ ".json") w).1.DeployDirectory)
            w.state).1.1 = none) :
    PerformDeploy env host app branch w
      = .panicked
          ⟨(env.Execute host (ReadConfig env (app ++ ".json") w).1.User
              ("mkdir " ++ (ReadConfig env (app ++ ".json") w).1.DeployDirectory)
              w.state).2,
           (ReadConfig env (app ++ ".json") w).2.trace
            ++ [Event.newClient host (ReadConfig env (app ++ ".json") w).1.User]
            ++ runEvents (deployClient host (ReadConfig env (app ++ ".json") w).1.User)
                ("mkdir " ++ (ReadConfig env (app ++ ".json") w).1.DeployDirectory)
                (env.Execute host (ReadConfig env (app ++ ".json") w).1.User
                  ("mkdir " ++ (ReadConfig env (app ++ ".json") w).1.DeployDirectory)
                  w.state).1
            ++ [Event.close]⟩ := by
  rw [PerformDeploy_eq]
  simp only [setupCommands, List.cons_append]
  rw [RunCommandChain_nil_first, RunCommand_world]
  · simp [Exit.andThen, Exit.deferred, World.emit, deployClient, gosshNew, ReadConfig_state]
  · simpa [deployClient, gosshNew, World.emit, ReadConfig_state] using h

theorem RunCommandChain_of_returned {σ : Type} (env : Env σ) (commands : List String)
    (client : Client) (w : World σ)
    (h : (RunCommandChain env commands client w).isReturned = true) :
    executed (RunCommandChain env commands client w).world.trace
        = executed w.trace ++ commands
      ∧ clockReads (RunCommandChain env commands client w).world.trace
        = clockReads w.trace
      ∧ sessionEvents (RunCommandChain env commands client w).world.trace
        = sessionEvents w.trace ++ commands.map (Event.execute client.Host client.User) := by
  obtain ⟨evs, htr, hses, -, hclock, -, hret⟩ := RunCommandChain_spec env commands client w
  rw [htr, executed_append, clockReads_append, sessionEvents_append, hclock, hses, hret h,
    List.append_nil]
  exact ⟨rfl, rfl, rfl⟩

theorem RunCommandChain_of_nil_first {σ : Type} (env : Env σ) (cmd : String)
    (rest : List String) (client : Client) (w : World σ)
    (h : (env.Execute client.Host client.User cmd w.state).1.1 = none) :
    (RunCommandChain env (cmd :: rest) client w).isReturned = false
      ∧ executed (RunCommandChain env (cmd :: rest) client w).world.trace
        = executed w.trace ++ [cmd]
      ∧ clockReads (RunCommandChain env (cmd :: rest) client w).world.trace
        = clockReads w.trace := by
  rw [RunCommandChain_nil_first env cmd rest client w h]
  refine ⟨rfl, ?_, ?_⟩
  · show executed (RunCommand env cmd client w).world.trace = _
    rw [RunCommand_world, executed_append, executed_runEvents]
  · show clockReads (RunCommand env cmd client w).world.trace = _
    rw [RunCommand_world, clockReads_append, clockReads_runEvents, List.append_nil]

theorem PerformDeploy_trace_facts {σ : Type} (env : Env σ) (host app branch : String)
    (s : σ) :
    sessionEvents (PerformDeploy env host app branch ⟨s, []⟩).world.trace
        = [Event.newClient host (ReadConfig env (app ++ ".json") ⟨s, []⟩).1.User]
          ++ (executed (PerformDeploy env host app branch ⟨s, []⟩).world.trace).map
              (Event.execute host (ReadConfig env (app ++ ".json") ⟨s, []⟩).1.User)
          ++ [Event.close]
      ∧ (PerformDeploy env host app branch ⟨s, []⟩).world.trace.getLast? = some Event.close
      ∧ filesOpened (PerformDeploy env host app branch ⟨s, []⟩).world.trace
          = [app ++ ".json"]
      ∧ (executed (PerformDeploy env host app branch ⟨s, []⟩).world.trace).head?
          = some ("mkdir " ++ (ReadConfig env (app ++ ".json") ⟨s, []⟩).1.DeployDirectory)
      ∧ ((PerformDeploy env host app branch ⟨s, []⟩).isReturned = true →
          ∃ t : Time,
            clockReads (PerformDeploy env host app branch ⟨s, []⟩).world.trace = [t]
            ∧ executed (PerformDeploy env host app branch ⟨s, []⟩).world.trace
                = deployCommands (ReadConfig env (app ++ ".json") ⟨s, []⟩).1 branch
                    (t.Format timestampLayout)) := by
  obtain ⟨evs, htr, hses, hfiles, hhead, hret⟩ :=
    PerformDeploy_spec env host app branch ⟨s, []⟩
  have hex : executed (PerformDeploy env host app branch ⟨s, []⟩).world.trace
      = executed evs := by
    rw [htr]
    simp only [executed_append, ReadConfig_executed]
    simp [executed]
  refine ⟨?_, ?_, ?_, ?_, ?_⟩
  · rw [hex, htr]
    simp only [sessionEvents_append, ReadConfig_sessionEvents, hses]
    simp [sessionEvents]
  · rw [htr, List.getLast?_append]
    rfl
  · rw [htr]
    simp only [filesOpened_append, ReadConfig_filesOpened, hfiles]
    simp [filesOpened]
  · rw [hex]
    exact hhead
  · intro h
    obtain ⟨t, hclock, hexec⟩ := hret h
    refine ⟨t, ?_, ?_⟩
    · rw [htr]
      simp only [clockReads_append, ReadConfig_clockReads, hclock]
      simp [clockReads]
    · rw [hex]
      exact hexec

theorem PerformDeploy_of_nil_first {σ : Type} (env : Env σ) (host app branch : String)
    (s : σ)
    (h : (env.Execute host (ReadConfig env (app ++ ".json") ⟨s, []⟩).1.User
            ("mkdir " ++ (ReadConfig env (app ++ ".json") ⟨s, []⟩).1.DeployDirectory)
            s).1.1 = none) :
    (PerformDeploy env host app branch ⟨s, []⟩).isReturned = false
      ∧ executed (PerformDeploy env host app branch ⟨s, []⟩).world.trace
          = ["mkdir " ++ (ReadConfig env (app ++ ".json") ⟨s, []⟩).1.DeployDirectory]
      ∧ written .error (PerformDeploy env host app branch ⟨s, []⟩).world.trace
          = (match (env.Execute host (ReadConfig env (app ++ ".json") ⟨s, []⟩).1.User
                ("mkdir " ++ (ReadConfig env (app ++ ".json") ⟨s, []⟩).1.DeployDirectory)
                s).1.2 with
             | some e => [["ERROR", e]]
             | none => [])
      ∧ written .info (PerformDeploy env host app branch ⟨s, []⟩).world.trace = [] := by
  rw [PerformDeploy_nil_first env host app branch ⟨s, []⟩ h]
  simp only [Exit.isReturned, Exit.world, executed_append, written_append,
    ReadConfig_executed, ReadConfig_written, executed_runEvents, written_error_runEvents,
    written_info_runEvents, h]
  refine ⟨trivial, by simp [executed], ?_, by simp [written]⟩
  cases h2 : (env.Execute host (ReadConfig env (app ++ ".json") ⟨s, []⟩).1.User
      ("mkdir " ++ (ReadConfig env (app ++ ".json") ⟨s, []⟩).1.DeployDirectory) s).1.2 <;>
    simp [written, deployClient, MakeLogger]

/-! ## The timestamp label -/

theorem digitChar_toNat (k : Nat) (h : k < 10) : (digitChar k).toNat - 48 = k := by
  interval_cases k <;> rfl

theorem digitChar_isDigit (k : Nat) (h : k < 10) : (digitChar k).isDigit = true := by
  interval_cases k <;> rfl

theorem utoa_last (room u : Nat) (buf : List Char) (h : u < 10) :
    utoa (room + 1) u buf = digitChar u :: buf := by
  simp [utoa, h]

theorem utoa_step (room u : Nat) (buf : List Char) (h : ¬ u < 10) :
    utoa (room + 1) u buf = utoa room (u / 10) (digitChar (u % 10) :: buf) := by
  simp [utoa, h]

theorem appendInt_natCast (b : List Char) (n width : Nat) :
    appendInt b (n : Int) width
      = b ++ List.replicate (width - (utoa 20 n []).length) '0' ++ utoa 20 n [] := by
  have hneg : ¬ ((n : Int) < 0) := by omega
  simp [appendInt, hneg]

theorem appendInt_two (b : List Char) (n : Nat) (h : n < 100) :
    appendInt b (n : Int) 2 = b ++ [digitChar (n / 10), digitChar (n % 10)] := by
  rw [appendInt_natCast]
  by_cases h10 : n < 10
  · have hq : n / 10 = 0 := by omega
    have hr : n % 10 = n := by omega
    rw [utoa_last 19 n [] h10, hq, hr]
    simp [digitChar]
  · rw [utoa_step 19 n [] h10, utoa_last 18 _ _ (by omega)]
    simp

theorem appendInt_four (b : List Char) (y : Int) (h0 : 0 ≤ y) (h1 : y ≤ 9999) :
    appendInt b y 4
      = b ++ [digitChar (y.toNat / 1000), digitChar (y.toNat / 100 % 10),
              digitChar (y.toNat / 10 % 10), digitChar (y.toNat % 10)] := by
  obtain ⟨n, rfl⟩ := Int.eq_ofNat_of_zero_le h0
  have hn : n ≤ 9999 := by omega
  simp only [Int.toNat_ofNat]
  rw [appendInt_natCast]
  by_cases h10 : n < 10
  · have e1 : n / 1000 = 0 := by omega
    have e2 : n / 100 % 10 = 0 := by omega
    have e3 : n / 10 % 10 = 0 := by omega
    have e4 : n % 10 = n := by omega
    rw [utoa_last 19 n [] h10, e1, e2, e3, e4]
    simp [digitChar]
  · rw [utoa_step 19 n [] h10]
    by_cases h100 : n < 100
    · have e1 : n / 1000 = 0 := by omega
      have e2 : n / 100 % 10 = 0 := by omega
      have e3 : n / 10 % 10 = n / 10 := by omega
      rw [utoa_last 18 _ _ (by omega), e1, e2, e3]
      simp [digitChar]
    · rw [utoa_step 18 _ _ (by omega)]
      by_cases h1000 : n < 1000
      · have e1 : n / 1000 = 0 := by omega
        have e2 : n / 100 % 10 = n / 10 / 10 := by omega
        rw [utoa_last 17 _ _ (by omega), e1, e2]
        simp [digitChar]
      · have e5 : n / 100 % 10 = n / 10 / 10 % 10 := by omega
        have e6 : n / 1000 = n / 10 / 10 / 10 := by omega
        rw [utoa_step 17 _ _ (by omega), utoa_last 16 _ _ (by omega), e5, e6]
        simp

theorem Format_timestampLayout (t : Time) :
    t.Format timestampLayout
      = String.mk (appendInt (appendInt (appendInt (appendInt (appendInt
          (appendInt [] t.year 4) t.month 2) t.day 2) t.hour 2) t.minute 2) t.second 2) :=
  rfl

theorem Format_timestampLayout_digits (t : Time) (h0 : 0 ≤ t.year) (h1 : t.year ≤ 9999) :
    (t.Format timestampLayout).toList
      = [digitChar (t.year.toNat / 1000), digitChar (t.year.toNat / 100 % 10),
         digitChar (t.year.toNat / 10 % 10), digitChar (t.year.toNat % 10),
         digitChar (t.month / 10), digitChar (t.month % 10),
         digitChar (t.day / 10), digitChar (t.day % 10),
         digitChar (t.hour / 10), digitChar (t.hour % 10),
         digitChar (t.minute / 10), digitChar (t.minute % 10),
         digitChar (t.second / 10), digitChar (t.second % 10)] := by
  have hm := t.month_range
  have hd := t.day_range
  have hh := t.hour_range
  have hmi := t.minute_range
  have hs := t.second_range
  rw [Format_timestampLayout, appendInt_four _ _ h0 h1, appendInt_two _ _ (by omega),
    appendInt_two _ _ (by omega), appendInt_two _ _ (by omega), appendInt_two _ _ (by omega),
    appendInt_two _ _ (by omega)]
  simp

theorem decimalValue_two (a b : Nat) (ha : a < 10) (hb : b < 10) :
    decimalValue [digitChar a, digitChar b] = 10 * a + b := by
  simp [decimalValue, digitChar_toNat, ha, hb]

theorem decimalValue_four (a b c d : Nat) (ha : a < 10) (hb : b < 10) (hc : c < 10)
    (hd : d < 10) :
    decimalValue [digitChar a, digitChar b, digitChar c, digitChar d]
      = 1000 * a + 100 * b + 10 * c + d := by
  simp [decimalValue, digitChar_toNat, ha, hb, hc, hd]
  ring

/-! ## The phases -/

/-- C6 (code defect): RunCommand hands the command to `client.Execute` exactly
once.  When the execution returns a result, RunCommand returns normally,
writes to the error writer the error message, `STDOUT: ` with the captured
stdout and `STDERR: ` with the captured stderr, in this order, exactly when an
error came with it, and writes the combined output to the info writer once.
When the execution returns the nil result, RunCommand does not return: it
writes at most the error message and panics before any info line. -/
theorem RunCommand_logs_or_panics {σ : Type} (env : Env σ) (cmd : String)
    (client : Client) (w : World σ) :
    executed (RunCommand env cmd client w).world.trace = executed w.trace ++ [cmd]
      ∧ (RunCommand env cmd client w).world.state
          = (env.Execute client.Host client.User cmd w.state).2
      ∧ (∀ rsp, (env.Execute client.Host client.User cmd w.state).1.1 = some rsp →
          (RunCommand env cmd client w).isReturned = true
          ∧ written .error (RunCommand env cmd client w).world.trace
              = written .error w.trace ++
                (match (env.Execute client.Host client.User cmd w.state).1.2 with
                 | some e =>
                   [client.ErrorWriter [e],
                    client.ErrorWriter ["STDOUT: " ++ rsp.Stdout],
                    client.ErrorWriter ["STDERR: " ++ rsp.Stderr]]
                 | none => [])
          ∧ written .info (RunCommand env cmd client w).world.trace
              = written .info w.trace ++ [client.InfoWriter [rsp.Combined]])
      ∧ ((env.Execute client.Host client.User cmd w.state).1.1 = none →
          (RunCommand env cmd client w).isReturned = false
          ∧ written .error (RunCommand env cmd client w).world.trace
              = written .error w.trace ++
                (match (env.Execute client.Host client.User cmd w.state).1.2 with
                 | some e => [client.ErrorWriter [e]]
                 | none => [])
          ∧ written .info (RunCommand env cmd client w).world.trace
              = written .info w.trace) := by
  refine ⟨?_, ?_, ?_, ?_⟩
  · rw [RunCommand_world, executed_append, executed_runEvents]
  · rw [RunCommand_world]
  · intro rsp h
    refine ⟨?_, ?_, ?_⟩
    · rw [RunCommand_isReturned, h]
      rfl
    · rw [RunCommand_world, written_append, written_error_runEvents, h]
      cases (env.Execute client.Host client.User cmd w.state).1.2 <;> rfl
    · rw [RunCommand_world, written_append, written_info_runEvents, h]
  · intro h
    refine ⟨?_, ?_, ?_⟩
    · rw [RunCommand_isReturned, h]
      rfl
    · rw [RunCommand_world, written_append, written_error_runEvents, h]
      cases (env.Execute client.Host client.User cmd w.state).1.2 <;> rfl
    · rw [RunCommand_world, written_append, written_info_runEvents, h, List.append_nil]

/-- C6 at the failing input: the host cannot be reached, `Execute` returns the
nil result with the error of the dial.  RunCommand writes that one error and
panics; there is no `STDOUT: ` line, no `STDERR: ` line and no info line. -/
theorem RunCommand_unreachable_host :
    (unreachableEnv.Execute "web1.example.org" "deploy" "mkdir /srv/app" ()).1
        = (none, some "dial tcp: connection refused")
      ∧ (RunCommand unreachableEnv "mkdir /srv/app"
          (deployClient "web1.example.org" "deploy") ⟨(), []⟩).isReturned = false
      ∧ written .error (RunCommand unreachableEnv "mkdir /srv/app"
          (deployClient "web1.example.org" "deploy") ⟨(), []⟩).world.trace
          = [["ERROR", "dial tcp: connection refused"]]
      ∧ written .info (RunCommand unreachableEnv "mkdir /srv/app"
          (deployClient "web1.example.org" "deploy") ⟨(), []⟩).world.trace = [] := by
  have h := (RunCommand_logs_or_panics unreachableEnv "mkdir /srv/app"
    (deployClient "web1.example.org" "deploy") ⟨(), []⟩).2.2.2 rfl
  exact ⟨rfl, h.1, by rw [h.2.1]; rfl, by rw [h.2.2]; rfl⟩

/-- C2 (code defect): when every execution returns a result, RunCommandChain
returns normally and the strings it hands to `client.Execute` are the input
list itself, verbatim and in order, whatever entries fail with an error.  When
the execution of the first entry returns the nil result, the chain panics in
RunCommand and no later entry is executed. -/
theorem RunCommandChain_in_order_unless_nil {σ : Type} (env : Env σ)
    (commands : List String) (client : Client) (w : World σ) :
    ((∀ h u c st, (env.Execute h u c st).1.1 ≠ none) →
        (RunCommandChain env commands client w).isReturned = true
        ∧ executed (RunCommandChain env commands client w).world.trace
            = executed w.trace ++ commands
        ∧ sessionEvents (RunCommandChain env commands client w).world.trace
            = sessionEvents w.trace
              ++ commands.map (Event.execute client.Host client.User))
      ∧ (∀ cmd rest, commands = cmd :: rest →
          (env.Execute client.Host client.User cmd w.state).1.1 = none →
          (RunCommandChain env commands client w).isReturned = false
          ∧ executed (RunCommandChain env commands client w).world.trace
              = executed w.trace ++ [cmd]) := by
  constructor
  · intro hr
    have hret := RunCommandChain_readable env commands client w hr
    have h := RunCommandChain_of_returned env commands client w hret
    exact ⟨hret, h.1, h.2.2⟩
  · intro cmd rest hc h
    subst hc
    have hn := RunCommandChain_of_nil_first env cmd rest client w h
    exact ⟨hn.1, hn.2.1⟩

/-- C2 at the failing input: two configured commands, and no session can be
created for the first.  Only the first is handed to `Execute`. -/
theorem RunCommandChain_session_lost :
    ((dropOn ["./build.sh"]).Execute "web1.example.org" "deploy" "./build.sh" ()).1
        = (none, some "ssh: session could not be created")
      ∧ (RunCommandChain (dropOn ["./build.sh"]) ["./build.sh", "./migrate.sh"]
          (deployClient "web1.example.org" "deploy") ⟨(), []⟩).isReturned = false
      ∧ executed (RunCommandChain (dropOn ["./build.sh"]) ["./build.sh", "./migrate.sh"]
          (deployClient "web1.example.org" "deploy") ⟨(), []⟩).world.trace
          = ["./build.sh"] := by
  have h := (RunCommandChain_in_order_unless_nil (dropOn ["./build.sh"])
    ["./build.sh", "./migrate.sh"] (deployClient "web1.example.org" "deploy") ⟨(), []⟩).2
    "./build.sh" ["./migrate.sh"] rfl (by decide)
  exact ⟨by decide, h.1, by rw [h.2]; rfl⟩

/-- C3 (code defect): when every execution returns a result,
SetupWorkDirectory returns normally and hands exactly four commands to
`client.Execute`, in this order: `mkdir d`, `mkdir d/releases`,
`mkdir d/shared`, `mkdir d/releases/build` (no `-p`), whatever fails with an
error.  When the execution of the first returns the nil result,
SetupWorkDirectory panics and the other three are not issued. -/
theorem SetupWorkDirectory_four_mkdir_unless_nil {σ : Type} (env : Env σ)
    (config : Config) (client : Client) (w : World σ) :
    ((∀ h u c st, (env.Execute h u c st).1.1 ≠ none) →
        (SetupWorkDirectory env config client w).isReturned = true
        ∧ executed (SetupWorkDirectory env config client w).world.trace
            = executed w.trace ++
              ["mkdir " ++ config.DeployDirectory,
               "mkdir " ++ config.DeployDirectory ++ "/releases",
               "mkdir " ++ config.DeployDirectory ++ "/shared",
               "mkdir " ++ config.DeployDirectory ++ "/releases/build"])
      ∧ ((env.Execute client.Host client.User ("mkdir " ++ config.DeployDirectory)
            w.state).1.1 = none →
          (SetupWorkDirectory env config client w).isReturned = false
          ∧ executed (SetupWorkDirectory env config client w).world.trace
              = executed w.trace ++ ["mkdir " ++ config.DeployDirectory]) := by
  rw [SetupWorkDirectory_eq_chain]
  constructor
  · intro hr
    have hret := RunCommandChain_readable env (setupCommands config) client w hr
    exact ⟨hret, (RunCommandChain_of_returned env _ client w hret).1⟩
  · intro h
    simp only [setupCommands]
    exact ⟨(RunCommandChain_of_nil_first env _ _ client w h).1,
      (RunCommandChain_of_nil_first env _ _ client w h).2.1⟩

/-- C3 at the failing input: the host cannot be reached.  Only `mkdir /srv/app`
is handed to `Execute`. -/
theorem SetupWorkDirectory_unreachable_host :
    (unreachableEnv.Execute "web1.example.org" "deploy" "mkdir /srv/app" ()).1.1 = none
      ∧ (SetupWorkDirectory unreachableEnv exampleConfig
          (deployClient "web1.example.org" "deploy") ⟨(), []⟩).isReturned = false
      ∧ executed (SetupWorkDirectory unreachableEnv exampleConfig
          (deployClient "web1.example.org" "deploy") ⟨(), []⟩).world.trace
          = ["mkdir /srv/app"] := by
  have h := (SetupWorkDirectory_four_mkdir_unless_nil unreachableEnv exampleConfig
    (deployClient "web1.example.org" "deploy") ⟨(), []⟩).2 rfl
  exact ⟨rfl, h.1, by rw [h.2]; decide⟩

/-- C4 (code defect): when every execution returns a result, CheckoutRepo
returns normally and hands exactly two commands to `client.Execute`, in order:
`git clone r d/releases/build`, then `cd d/releases/build && git checkout b`,
the directory of the clone being the directory of the `cd`; the checkout is
issued also when the clone fails with an error.  When the execution of the
clone returns the nil result, CheckoutRepo panics and the checkout is not
issued. -/
theorem CheckoutRepo_clone_then_checkout_unless_nil {σ : Type} (env : Env σ)
    (branch : String) (config : Config) (client : Client) (w : World σ) :
    ((∀ h u c st, (env.Execute h u c st).1.1 ≠ none) →
        (CheckoutRepo env branch config client w).isReturned = true
        ∧ executed (CheckoutRepo env branch config client w).world.trace
            = executed w.trace ++
              ["git clone " ++ config.Repo ++ " "
                  ++ (config.DeployDirectory ++ "/releases/build"),
               "cd " ++ (config.DeployDirectory ++ "/releases/build")
                  ++ " && git checkout " ++ branch])
      ∧ ((env.Execute client.Host client.User
            ("git clone " ++ config.Repo ++ " "
              ++ (config.DeployDirectory ++ "/releases/build")) w.state).1.1 = none →
          (CheckoutRepo env branch config client w).isReturned = false
          ∧ executed (CheckoutRepo env branch config client w).world.trace
              = executed w.trace ++
                ["git clone " ++ config.Repo ++ " "
                  ++ (config.DeployDirectory ++ "/releases/build")]) := by
  rw [CheckoutRepo_eq_chain]
  constructor
  · intro hr
    have hret := RunCommandChain_readable env (checkoutCommands config branch) client w hr
    exact ⟨hret, (RunCommandChain_of_returned env _ client w hret).1⟩
  · intro h
    simp only [checkoutCommands]
    exact ⟨(RunCommandChain_of_nil_first env _ _ client w h).1,
      (RunCommandChain_of_nil_first env _ _ client w h).2.1⟩

/-- C4 at the failing input: no session can be created for the clone.  The
checkout is not handed to `Execute`. -/
theorem CheckoutRepo_session_lost :
    ((dropOn ["git clone git@x:y.git /srv/app/releases/build"]).Execute
        "web1.example.org" "deploy" "git clone git@x:y.git /srv/app/releases/build" ()).1
        = (none, some "ssh: session could not be created")
      ∧ (CheckoutRepo (dropOn ["git clone git@x:y.git /srv/app/releases/build"]) "v1.2.3"
          exampleConfig (deployClient "web1.example.org" "deploy") ⟨(), []⟩).isReturned
          = false
      ∧ executed (CheckoutRepo (dropOn ["git clone git@x:y.git /srv/app/releases/build"])
          "v1.2.3" exampleConfig (deployClient "web1.example.org" "deploy")
          ⟨(), []⟩).world.trace
          = ["git clone git@x:y.git /srv/app/releases/build"] := by
  have h := (CheckoutRepo_clone_then_checkout_unless_nil
    (dropOn ["git clone git@x:y.git /srv/app/releases/build"]) "v1.2.3" exampleConfig
    (deployClient "web1.example.org" "deploy") ⟨(), []⟩).2 (by decide)
  exact ⟨by decide, h.1, by rw [h.2]; decide⟩

/-- C5 (code defect): CleanupRelease reads the clock exactly once.  When every
execution returns a result it returns normally and, with ts the label of that
reading, hands exactly two commands to `client.Execute`, in order:
`mv d/releases/build d/releases/ts`, then `ln -sf d/releases/ts d/current`; the
second is issued also when the first fails with an error.  When the execution
of the `mv` returns the nil result, CleanupRelease panics and the `ln -sf` is
not issued. -/
theorem CleanupRelease_mv_then_ln_unless_nil {σ : Type} (env : Env σ)
    (config : Config) (client : Client) (w : World σ) :
    ((∀ h u c st, (env.Execute h u c st).1.1 ≠ none) →
        (CleanupRelease env config client w).isReturned = true
        ∧ clockReads (CleanupRelease env config client w).world.trace
            = clockReads w.trace ++ [env.Now w.state]
        ∧ executed (CleanupRelease env config client w).world.trace
            = executed w.trace ++
              ["mv " ++ (config.DeployDirectory ++ "/releases/build") ++ " "
                  ++ (config.DeployDirectory ++ "/releases/"
                        ++ (env.Now w.state).Format timestampLayout),
               "ln -sf "
                  ++ (config.DeployDirectory ++ "/releases/"
                        ++ (env.Now w.state).Format timestampLayout)
                  ++ " " ++ (config.DeployDirectory ++ "/current")])
      ∧ ((env.Execute client.Host client.User
            ("mv " ++ (config.DeployDirectory ++ "/releases/build") ++ " "
              ++ (config.DeployDirectory ++ "/releases/"
                    ++ (env.Now w.state).Format timestampLayout)) w.state).1.1 = none →
          (CleanupRelease env config client w).isReturned = false
          ∧ clockReads (CleanupRelease env config client w).world.trace
              = clockReads w.trace ++ [env.Now w.state]
          ∧ executed (CleanupRelease env config client w).world.trace
              = executed w.trace ++
                ["mv " ++ (config.DeployDirectory ++ "/releases/build") ++ " "
                  ++ (config.DeployDirectory ++ "/releases/"
                        ++ (env.Now w.state).Format timestampLayout)]) := by
  rw [CleanupRelease_eq_chain]
  have hclock : clockReads (w.emit (.now (env.Now w.state))).trace
      = clockReads w.trace ++ [env.Now w.state] := by
    simp [World.emit, clockReads]
  have hexec : executed (w.emit (.now (env.Now w.state))).trace = executed w.trace := by
    simp [World.emit, executed]
  constructor
  · intro hr
    have hret := RunCommandChain_readable env
      (cleanupCommands config ((env.Now w.state).Format timestampLayout)) client
      (w.emit (.now (env.Now w.state))) hr
    have h := RunCommandChain_of_returned env _ client _ hret
    exact ⟨hret, by rw [h.2.1, hclock], by rw [h.1, hexec]; rfl⟩
  · intro h
    have hn := RunCommandChain_of_nil_first env _
      ["ln -sf " ++ (config.DeployDirectory ++ "/releases/"
          ++ (env.Now w.state).Format timestampLayout) ++ " "
          ++ (config.DeployDirectory ++ "/current")] client
      (w.emit (.now (env.Now w.state))) h
    exact ⟨hn.1, by rw [← hclock]; exact hn.2.2, by rw [← hexec]; exact hn.2.1⟩

/-- C5 at the failing input: promotion at 2024-03-07 09:05:02, and no session
can be created for the `mv`.  The `ln -sf` is not handed to `Execute`. -/
theorem CleanupRelease_session_lost :
    ((dropOn ["mv /srv/app/releases/build /srv/app/releases/20240307090502"]).Execute
        "web1.example.org" "deploy"
        "mv /srv/app/releases/build /srv/app/releases/20240307090502" ()).1
        = (none, some "ssh: session could not be created")
      ∧ (CleanupRelease
          (dropOn ["mv /srv/app/releases/build /srv/app/releases/20240307090502"])
          exampleConfig (deployClient "web1.example.org" "deploy") ⟨(), []⟩).isReturned
          = false
      ∧ executed (CleanupRelease
          (dropOn ["mv /srv/app/releases/build /srv/app/releases/20240307090502"])
          exampleConfig (deployClient "web1.example.org" "deploy") ⟨(), []⟩).world.trace
          = ["mv /srv/app/releases/build /srv/app/releases/20240307090502"] := by
  have h := (CleanupRelease_mv_then_ln_unless_nil
    (dropOn ["mv /srv/app/releases/build /srv/app/releases/20240307090502"]) exampleConfig
    (deployClient "web1.example.org" "deploy") ⟨(), []⟩).2 (by decide)
  exact ⟨by decide, h.1, by rw [h.2.2]; decide⟩

/-! ## The whole deploy -/

/-- C1 (code defect): when every execution returns a result, whether with an
error or without, PerformDeploy returns normally, reads the clock once and
hands to `client.Execute` exactly, in this order: the four SetupWorkDirectory
commands, the two CheckoutRepo commands, the entries of `c.Commands` in order,
and the two CleanupRelease commands for the label ts of that clock reading,
`8 + len(c.Commands)` commands; for DeployDirectory `/srv/app`, Repo
`git@x:y.git`, Commands `["./build.sh"]` and branch `v1.2.3` this is the
sequence of the end-to-end scenario.  When the first execution returns the nil
result, PerformDeploy panics in RunCommand and only the first `mkdir` is
issued. -/
theorem PerformDeploy_sequence_unless_nil {σ : Type} (env : Env σ)
    (host app branch : String) (s : σ) :
    ((∀ h u c st, (env.Execute h u c st).1.1 ≠ none) →
      (PerformDeploy env host app branch ⟨s, []⟩).isReturned = true
      ∧ ∃ t : Time,
        clockReads (PerformDeploy env host app branch ⟨s, []⟩).world.trace = [t]
        ∧ executed (PerformDeploy env host app branch ⟨s, []⟩).world.trace
          = ["mkdir " ++ (ReadConfig env (app ++ ".json") ⟨s, []⟩).1.DeployDirectory,
             "mkdir " ++ (ReadConfig env (app ++ ".json") ⟨s, []⟩).1.DeployDirectory
                ++ "/releases",
             "mkdir " ++ (ReadConfig env (app ++ ".json") ⟨s, []⟩).1.DeployDirectory
                ++ "/shared",
             "mkdir " ++ (ReadConfig env (app ++ ".json") ⟨s, []⟩).1.DeployDirectory
                ++ "/releases/build",
             "git clone " ++ (ReadConfig env (app ++ ".json") ⟨s, []⟩).1.Repo ++ " "
                ++ ((ReadConfig env (app ++ ".json") ⟨s, []⟩).1.DeployDirectory
                      ++ "/releases/build"),
             "cd " ++ ((ReadConfig env (app ++ ".json") ⟨s, []⟩).1.DeployDirectory
                      ++ "/releases/build")
                ++ " && git checkout " ++ branch]
            ++ (ReadConfig env (app ++ ".json") ⟨s, []⟩).1.Commands
            ++ ["mv " ++ ((ReadConfig env (app ++ ".json") ⟨s, []⟩).1.DeployDirectory
                      ++ "/releases/build") ++ " "
                  ++ ((ReadConfig env (app ++ ".json") ⟨s, []⟩).1.DeployDirectory
                      ++ "/releases/" ++ t.Format timestampLayout),
                "ln -sf "
                  ++ ((ReadConfig env (app ++ ".json") ⟨s, []⟩).1.DeployDirectory
                      ++ "/releases/" ++ t.Format timestampLayout)
                  ++ " "
                  ++ ((ReadConfig env (app ++ ".json") ⟨s, []⟩).1.DeployDirectory
                      ++ "/current")]
        ∧ (executed (PerformDeploy env host app branch ⟨s, []⟩).world.trace).length
          = 8 + (ReadConfig env (app ++ ".json") ⟨s, []⟩).1.Commands.length
        ∧ ((ReadConfig env (app ++ ".json") ⟨s, []⟩).1.DeployDirectory = "/srv/app" →
           (ReadConfig env (app ++ ".json") ⟨s, []⟩).1.Repo = "git@x:y.git" →
           (ReadConfig env (app ++ ".json") ⟨s, []⟩).1.Commands = ["./build.sh"] →
           branch = "v1.2.3" →
           executed (PerformDeploy env host app branch ⟨s, []⟩).world.trace
            = ["mkdir /srv/app",
               "mkdir /srv/app/releases",
               "mkdir /srv/app/shared",
               "mkdir /srv/app/releases/build",
               "git clone git@x:y.git /srv/app/releases/build",
               "cd /srv/app/releases/build && git checkout v1.2.3",
               "./build.sh",
               "mv /srv/app/releases/build /srv/app/releases/" ++ t.Format timestampLayout,
               "ln -sf /srv/app/releases/" ++ t.Format timestampLayout
                  ++ " /srv/app/current"]))
    ∧ ((env.Execute host (ReadConfig env (app ++ ".json") ⟨s, []⟩).1.User
          ("mkdir " ++ (ReadConfig env (app ++ ".json") ⟨s, []⟩).1.DeployDirectory)
          s).1.1 = none →
        (PerformDeploy env host app branch ⟨s, []⟩).isReturned = false
        ∧ executed (PerformDeploy env host app branch ⟨s, []⟩).world.trace
            = ["mkdir " ++ (ReadConfig env (app ++ ".json") ⟨s, []⟩).1.DeployDirectory]) := by
  constructor
  · intro hr
    have hret := PerformDeploy_readable env host app branch ⟨s, []⟩ hr
    obtain ⟨t, hclock, hexec⟩ :=
      (PerformDeploy_trace_facts env host app branch s).2.2.2.2 hret
    refine ⟨hret, t, hclock, ?_, ?_, ?_⟩
    · rw [hexec]
      simp [deployCommands, setupCommands, checkoutCommands, cleanupCommands]
    · rw [hexec, deployCommands_length]
    · intro hd hr hc hb
      rw [hexec, deployCommands, setupCommands, checkoutCommands, cleanupCommands,
        hd, hr, hc, hb]
      simp [String.append_assoc]
      constructor
      · rw [← String.append_assoc]; rfl
      · rw [← String.append_assoc]; rfl
  · intro h
    have hn := PerformDeploy_of_nil_first env host app branch s h
    exact ⟨hn.1, hn.2.1⟩

/-- C1 at the failing input: the configuration of the scenario, branch
`v1.2.3`, promotion at 2024-03-07 09:05:02.  On a host where every command
succeeds the nine commands of the scenario are issued; on a host that cannot
be reached one command of the nine is handed to `Execute`. -/
theorem PerformDeploy_scenario_unreachable_host :
    executed (PerformDeploy exampleEnv "web1.example.org" "app" "v1.2.3"
        ⟨(), []⟩).world.trace
        = ["mkdir /srv/app",
           "mkdir /srv/app/releases",
           "mkdir /srv/app/shared",
           "mkdir /srv/app/releases/build",
           "git clone git@x:y.git /srv/app/releases/build",
           "cd /srv/app/releases/build && git checkout v1.2.3",
           "./build.sh",
           "mv /srv/app/releases/build /srv/app/releases/20240307090502",
           "ln -sf /srv/app/releases/20240307090502 /srv/app/current"]
      ∧ (unreachableEnv.Execute "web1.example.org" "deploy" "mkdir /srv/app" ()).1
          = (none, some "dial tcp: connection refused")
      ∧ (ReadConfig unreachableEnv ("app" ++ ".json") ⟨(), []⟩).1 = exampleConfig
      ∧ (PerformDeploy unreachableEnv "web1.example.org" "app" "v1.2.3"
          ⟨(), []⟩).isReturned = false
      ∧ executed (PerformDeploy unreachableEnv "web1.example.org" "app" "v1.2.3"
          ⟨(), []⟩).world.trace = ["mkdir /srv/app"] := by
  have hgood := (PerformDeploy_sequence_unless_nil exampleEnv "web1.example.org" "app"
    "v1.2.3" ()).1 (fun _ _ _ _ => by simp [exampleEnv])
  obtain ⟨-, t, hclk, -, -, hex⟩ := hgood
  have h0 : clockReads
      (PerformDeploy exampleEnv "web1.example.org" "app" "v1.2.3" ⟨(), []⟩).world.trace
        = [exampleTime] := rfl
  have ht : t = exampleTime := by
    rw [h0] at hclk
    exact (List.cons.inj hclk).1.symm
  have h := (PerformDeploy_sequence_unless_nil unreachableEnv "web1.example.org" "app"
    "v1.2.3" ()).2 rfl
  refine ⟨?_, rfl, rfl, h.1, by rw [h.2]; decide⟩
  rw [hex rfl rfl rfl rfl, ht]
  decide

/-- C7: for every host, app and branch and every behaviour of the remote
executions, the nil result included, the calls of PerformDeploy that concern
the session are, in order: one `gossh.New` for the host given as argument and
the User of the configuration, then the executions, all on that client, then
one `client.Close()`, which is the last call of the whole run, on a normal
return and on a panic alike.  When PerformDeploy returns normally the last
execution before the close is the `ln -sf` of CleanupRelease and
`8 + len(Commands)` commands were executed. -/
theorem PerformDeploy_session_lifecycle {σ : Type} (env : Env σ)
    (host app branch : String) (s : σ) :
    sessionEvents (PerformDeploy env host app branch ⟨s, []⟩).world.trace
        = [Event.newClient host (ReadConfig env (app ++ ".json") ⟨s, []⟩).1.User]
          ++ (executed (PerformDeploy env host app branch ⟨s, []⟩).world.trace).map
              (Event.execute host (ReadConfig env (app ++ ".json") ⟨s, []⟩).1.User)
          ++ [Event.close]
      ∧ (PerformDeploy env host app branch ⟨s, []⟩).world.trace.getLast?
          = some Event.close
      ∧ ((PerformDeploy env host app branch ⟨s, []⟩).isReturned = true →
          (executed (PerformDeploy env host app branch ⟨s, []⟩).world.trace).length
              = 8 + (ReadConfig env (app ++ ".json") ⟨s, []⟩).1.Commands.length
          ∧ ∃ t : Time,
              clockReads (PerformDeploy env host app branch ⟨s, []⟩).world.trace = [t]
              ∧ (executed (PerformDeploy env host app branch ⟨s, []⟩).world.trace).getLast?
                  = some ("ln -sf "
                      ++ ((ReadConfig env (app ++ ".json") ⟨s, []⟩).1.DeployDirectory
                          ++ "/releases/" ++ t.Format timestampLayout)
                      ++ " "
                      ++ ((ReadConfig env (app ++ ".json") ⟨s, []⟩).1.DeployDirectory
                          ++ "/current"))) := by
  have hf := PerformDeploy_trace_facts env host app branch s
  refine ⟨hf.1, hf.2.1, fun hret => ?_⟩
  obtain ⟨t, hclock, hexec⟩ := hf.2.2.2.2 hret
  refine ⟨by rw [hexec, deployCommands_length], t, hclock, ?_⟩
  rw [hexec, deployCommands, cleanupCommands, List.getLast?_append]
  simp

/-- C7 on the panic path: the host cannot be reached, RunCommand panics in the
first command, and the deferred close still follows it. -/
theorem PerformDeploy_closes_after_panic :
    (PerformDeploy unreachableEnv "web1.example.org" "app" "v1.2.3"
        ⟨(), []⟩).isReturned = false
      ∧ sessionEvents (PerformDeploy unreachableEnv "web1.example.org" "app" "v1.2.3"
          ⟨(), []⟩).world.trace
          = [Event.newClient "web1.example.org" "deploy",
             Event.execute "web1.example.org" "deploy" "mkdir /srv/app",
             Event.close]
      ∧ (PerformDeploy unreachableEnv "web1.example.org" "app" "v1.2.3"
          ⟨(), []⟩).world.trace.getLast? = some Event.close := by
  have h := PerformDeploy_session_lifecycle unreachableEnv "web1.example.org" "app"
    "v1.2.3" ()
  refine ⟨rfl, ?_, h.2.1⟩
  rw [h.1]
  rfl

/-- C9 (code defect): for every application name a, the one file PerformDeploy
opens is `a.json`, and when it can be opened the configuration of the deploy
is what the decoder makes of its content.  When the file cannot be opened,
ReadConfig prints `error:` with the error of the decoder on the console,
returns `Config{}` and leaves the world as it was; PerformDeploy then creates
the client for the empty user and starts the phases with the empty fields, the
first command being `mkdir ` followed by nothing.  When every execution
returns a result all four phases run; when the first execution returns the nil
result PerformDeploy panics in RunCommand and only that first command is
issued. -/
theorem PerformDeploy_config_file {σ : Type} (env : Env σ)
    (host app branch : String) (s : σ) :
    filesOpened (PerformDeploy env host app branch ⟨s, []⟩).world.trace = [app ++ ".json"]
      ∧ (∀ content, env.osOpen (app ++ ".json") s = some content →
          (ReadConfig env (app ++ ".json") ⟨s, []⟩).1 = (env.jsonDecode content).1
          ∧ (sessionEvents (PerformDeploy env host app branch ⟨s, []⟩).world.trace).head?
              = some (Event.newClient host (env.jsonDecode content).1.User)
          ∧ (executed (PerformDeploy env host app branch ⟨s, []⟩).world.trace).head?
              = some ("mkdir " ++ (env.jsonDecode content).1.DeployDirectory)
          ∧ ((PerformDeploy env host app branch ⟨s, []⟩).isReturned = true →
              ∃ t : Time,
                executed (PerformDeploy env host app branch ⟨s, []⟩).world.trace
                  = deployCommands (env.jsonDecode content).1 branch
                      (t.Format timestampLayout)))
      ∧ (env.osOpen (app ++ ".json") s = none →
          (ReadConfig env (app ++ ".json") ⟨s, []⟩).1 = Config.zero
          ∧ printed (ReadConfig env (app ++ ".json") ⟨s, []⟩).2.trace
              = [["error:", osErrInvalid]]
          ∧ (ReadConfig env (app ++ ".json") ⟨s, []⟩).2.state = s
          ∧ (sessionEvents (PerformDeploy env host app branch ⟨s, []⟩).world.trace).head?
              = some (Event.newClient host "")
          ∧ (executed (PerformDeploy env host app branch ⟨s, []⟩).world.trace).head?
              = some "mkdir "
          ∧ ((∀ h u c st, (env.Execute h u c st).1.1 ≠ none) →
              ∃ t : Time,
                clockReads (PerformDeploy env host app branch ⟨s, []⟩).world.trace = [t]
                ∧ executed (PerformDeploy env host app branch ⟨s, []⟩).world.trace
                    = ["mkdir ",
                       "mkdir /releases",
                       "mkdir /shared",
                       "mkdir /releases/build",
                       "git clone  /releases/build",
                       "cd /releases/build && git checkout " ++ branch,
                       "mv /releases/build /releases/" ++ t.Format timestampLayout,
                       "ln -sf /releases/" ++ t.Format timestampLayout ++ " /current"])
          ∧ ((env.Execute host "" "mkdir " s).1.1 = none →
              (PerformDeploy env host app branch ⟨s, []⟩).isReturned = false
              ∧ executed (PerformDeploy env host app branch ⟨s, []⟩).world.trace
                  = ["mkdir "])) := by
  have hf := PerformDeploy_trace_facts env host app branch s
  refine ⟨hf.2.2.1, fun content hopen => ?_, fun hnone => ?_⟩
  · have hc := ReadConfig_opened env (app ++ ".json") ⟨s, []⟩ content hopen
    refine ⟨hc, ?_, ?_, fun hret => ?_⟩
    · rw [hf.1, hc]
      rfl
    · rw [hf.2.2.2.1, hc]
    · obtain ⟨t, -, hexec⟩ := hf.2.2.2.2 hret
      exact ⟨t, by rw [hexec, hc]⟩
  · have hz := ReadConfig_unopened env (app ++ ".json") ⟨s, []⟩ hnone
    have hd : "mkdir " ++ Config.zero.DeployDirectory = "mkdir " := by decide
    refine ⟨hz.1, by simpa [printed] using hz.2, ReadConfig_state env _ _, ?_, ?_,
      fun hr => ?_, fun hnil => ?_⟩
    · rw [hf.1, hz.1]
      rfl
    · rw [hf.2.2.2.1, hz.1, hd]
    · obtain ⟨t, hclock, hexec⟩ :=
        hf.2.2.2.2 (PerformDeploy_readable env host app branch ⟨s, []⟩ hr)
      refine ⟨t, hclock, ?_⟩
      rw [hexec, hz.1, deployCommands, setupCommands, checkoutCommands, cleanupCommands]
      simp [Config.zero, String.append_assoc]
      constructor
      · rw [← String.append_assoc]; rfl
      · rw [← String.append_assoc]; rfl
    · have hn := PerformDeploy_of_nil_first env host app branch s
        (by rw [hz.1]; simpa [Config.zero] using hnil)
      exact ⟨hn.1, by rw [hn.2.1, hz.1, hd]⟩


/-- C9 at the failing input: no file `app.json`.  On a host where every
command succeeds the eight commands with empty fields are issued; on a host
that cannot be reached only `mkdir ` is handed to `Execute`. -/
theorem missing_config_unreachable_host :
    missingFileUnreachableEnv.osOpen ("app" ++ ".json") () = none
      ∧ (ReadConfig missingFileUnreachableEnv ("app" ++ ".json") ⟨(), []⟩).1 = Config.zero
      ∧ (missingFileUnreachableEnv.Execute "web1.example.org" "" "mkdir " ()).1
          = (none, some "dial tcp: connection refused")
      ∧ (PerformDeploy missingFileUnreachableEnv "web1.example.org" "app" "v1.2.3"
          ⟨(), []⟩).isReturned = false
      ∧ executed (PerformDeploy missingFileUnreachableEnv "web1.example.org" "app" "v1.2.3"
          ⟨(), []⟩).world.trace = ["mkdir "]
      ∧ executed (PerformDeploy missingFileEnv "web1.example.org" "app" "v1.2.3"
          ⟨(), []⟩).world.trace
          = ["mkdir ",
             "mkdir /releases",
             "mkdir /shared",
             "mkdir /releases/build",
             "git clone  /releases/build",
             "cd /releases/build && git checkout v1.2.3",
             "mv /releases/build /releases/20240307090502",
             "ln -sf /releases/20240307090502 /current"] := by
  have hbad := (PerformDeploy_config_file missingFileUnreachableEnv "web1.example.org"
    "app" "v1.2.3" ()).2.2 rfl
  have hgood := (PerformDeploy_config_file missingFileEnv "web1.example.org"
    "app" "v1.2.3" ()).2.2 rfl
  obtain ⟨t, hclk, hex⟩ := hgood.2.2.2.2.2.1 (fun _ _ _ _ => by simp [missingFileEnv])
  have h0 : clockReads
      (PerformDeploy missingFileEnv "web1.example.org" "app" "v1.2.3" ⟨(), []⟩).world.trace
        = [exampleTime] := rfl
  have ht : t = exampleTime := by
    rw [h0] at hclk
    exact (List.cons.inj hclk).1.symm
  have hn := hbad.2.2.2.2.2.2 rfl
  refine ⟨rfl, hbad.1, rfl, hn.1, hn.2, ?_⟩
  rw [hex, ht]
  decide

/-! ## The timestamp label of a promotion -/

/-- C10, as the spec states it, fails: the label of 10000-01-01 00:00:00 has
fifteen characters. -/
theorem year_10000_label_too_long :
    timeYear10000.Format timestampLayout = "100000101000000"
      ∧ (timeYear10000.Format timestampLayout).length = 15 := by
  decide

/-- C10 as amended: for every wall-clock time whose year is between 0 and
9999, the label that CleanupRelease computes with layout `20060102150405` has
exactly 14 characters, all of them decimal digits, and reads YYYYMMDDHHMMSS:
the first four digits are the year, the next five pairs the month, the day,
the hour (at most 23), the minute and the second, each padded with zeros. -/
theorem timestamp_label_fixed_width (t : Time) (h0 : 0 ≤ t.year) (h1 : t.year ≤ 9999) :
    (t.Format timestampLayout).length = 14
      ∧ (∀ c ∈ (t.Format timestampLayout).toList, c.isDigit = true)
      ∧ (decimalValue ((t.Format timestampLayout).toList.take 4) : Int) = t.year
      ∧ decimalValue (((t.Format timestampLayout).toList.drop 4).take 2) = t.month
      ∧ decimalValue (((t.Format timestampLayout).toList.drop 6).take 2) = t.day
      ∧ decimalValue (((t.Format timestampLayout).toList.drop 8).take 2) = t.hour
      ∧ decimalValue (((t.Format timestampLayout).toList.drop 10).take 2) = t.minute
      ∧ decimalValue (((t.Format timestampLayout).toList.drop 12).take 2) = t.second
      ∧ t.hour ≤ 23 := by
  have hm := t.month_range
  have hd := t.day_range
  have hh := t.hour_range
  have hmi := t.minute_range
  have hs := t.second_range
  have hy : t.year.toNat ≤ 9999 := by omega
  have hlist := Format_timestampLayout_digits t h0 h1
  refine ⟨?_, ?_, ?_, ?_, ?_, ?_, ?_, ?_, hh⟩
  · rw [String.length, ← String.toList, hlist]
    rfl
  · rw [hlist]
    intro c hc
    simp only [List.mem_cons, List.mem_singleton, List.not_mem_nil, or_false] at hc
    rcases hc with h | h | h | h | h | h | h | h | h | h | h | h | h | h <;>
      (rw [h]; apply digitChar_isDigit; omega)
  · rw [hlist]
    simp only [List.take]
    rw [decimalValue_four _ _ _ _ (by omega) (by omega) (by omega) (by omega)]
    omega
  · rw [hlist]
    simp only [List.drop, List.take]
    rw [decimalValue_two _ _ (by omega) (by omega)]
    omega
  · rw [hlist]
    simp only [List.drop, List.take]
    rw [decimalValue_two _ _ (by omega) (by omega)]
    omega
  · rw [hlist]
    simp only [List.drop, List.take]
    rw [decimalValue_two _ _ (by omega) (by omega)]
    omega
  · rw [hlist]
    simp only [List.drop, List.take]
    rw [decimalValue_two _ _ (by omega) (by omega)]
    omega
  · rw [hlist]
    simp only [List.drop, List.take]
    rw [decimalValue_two _ _ (by omega) (by omega)]
    omega

/-- C10 as amended, at 2024-03-07 09:05:02: the label is `20240307090502`. -/
theorem example_label_reads_back :
    (0 ≤ exampleTime.year ∧ exampleTime.year ≤ 9999)
      ∧ exampleTime.Format timestampLayout = "20240307090502"
      ∧ (exampleTime.Format timestampLayout).length = 14
      ∧ (decimalValue ((exampleTime.Format timestampLayout).toList.take 4) : Int) = 2024 :=
  ⟨by decide, by decide,
   (timestamp_label_fixed_width exampleTime (by decide) (by decide)).1,
   (timestamp_label_fixed_width exampleTime (by decide) (by decide)).2.2.1⟩

end GoDeploy
